import Mathlib

/-!
Shallow embedding, in Lean 4, of the core of the `sms` Sega Master System
emulator (Z80 CPU interpreter, VDP, memory bus), together with theorems
checking the natural-language specification against the code.

Modelling conventions:
* C++ `u8` / `u16` values are `Nat`s; truncation to the machine width is
  explicit (`u8`, `u16` below) at every point where the C++ type system
  truncates.
* The byte-oriented bus handlers `read_byte` / `write_byte` that the host
  installs on the CPU are modelled as a memory function `mem : Nat → Nat`
  carried in the CPU state; the `port_out` handler is modelled as a log of
  `(port, value)` pairs.
* `logfatal` / unimplemented branches abort the process; functions that can
  reach them return `Option`, with `none` for the aborting paths.
* Fixed-size C++ arrays (`vram[0x4000]`, `cram[32]`, RAM, ROM, screen) are
  modelled as total functions `Nat → Nat`; indices stay in bounds in all
  theorems below unless explicitly noted.
-/

namespace SMS

/-- Value of a C++ `u8`: truncation to 8 bits. -/
def u8 (n : Nat) : Nat := n % 0x100

/-- Value of a C++ `u16`: truncation to 16 bits. -/
def u16 (n : Nat) : Nat := n % 0x10000

/-- Pointwise update of a memory function (a C++ array store). -/
def upd (m : Nat → Nat) (a v : Nat) : Nat → Nat :=
  fun x => if x = a then v else m x

/-- Pointwise update of a two-dimensional array such as `screen[256][256]`. -/
def upd2 (m : Nat → Nat → Nat) (y x v : Nat) : Nat → Nat → Nat :=
  fun a b => if a = y ∧ b = x then v else m a b

/-- `Util::Bitfield<WideRegister>::operator[]` (util/bitfield.h,
src/unnamed/part_006) at the `Hi` field: `(raw & field) >>
std::countr_zero(field)` with `field = 0xFF00`, i.e. `(raw & 0xFF00) >> 8`
on the `u16` backing. -/
def hi8 (w : Nat) : Nat := (u16 w &&& 0xFF00) >>> 8

/-- `Util::Bitfield<WideRegister>::operator[]` (util/bitfield.h,
src/unnamed/part_006) at the `Lo` field: `(raw & field) >>
std::countr_zero(field)` with `field = 0x00FF`, whose trailing-zero count is
zero. -/
def lo8 (w : Nat) : Nat := (u16 w &&& 0x00FF) >>> 0

/-- `Util::Bitfield<WideRegister>` assignment through `FieldRef::operator=`
(util/bitfield.h, src/unnamed/part_006) at the `Hi` field: `raw &= ~field;
raw |= value << countr_zero(field)` with `field = 0xFF00`, so on the `u16`
backing `raw = (raw & 0x00FF) | (value << 8)`. The assigned value has type
`u8` at every call site (`set_register` with an 8-bit register). -/
def set_hi8 (w v : Nat) : Nat := (u16 w &&& 0x00FF) ||| (u8 v <<< 8)

/-- `Util::Bitfield::operator[]` (util/bitfield.h, src/unnamed/part_006):
`(raw & field) >> std::countr_zero(field)`. Every field the embedded code
reads through it is a single bit; the field is passed as its mask together
with `shift = countr_zero(mask)`. -/
def bit_get (raw mask shift : Nat) : Nat := (raw &&& mask) >>> shift

/-- `Util::Bitfield::FieldRef::operator=` (util/bitfield.h,
src/unnamed/part_006) on a u8-backed bitfield: `raw &= ~field; raw |= value
<< countr_zero(field)`; `~field` and the `|=` result truncate to the `u8`
backing, so `raw = ((raw & (0xFF ^ mask)) | (value << shift)) & 0xFF`. -/
def bit_set (raw mask shift value : Nat) : Nat :=
  u8 ((raw &&& (0xFF ^^^ mask)) ||| (value <<< shift))

namespace Z80

/-- `Z80::FlagRegister` (registers.h): eight independent boolean flags. -/
structure Flags where
  s : Bool
  z : Bool
  b5 : Bool
  h : Bool
  b3 : Bool
  p_v : Bool
  n : Bool
  c : Bool

/-- `Z80::z80_t` (z80.h). The bus handlers are modelled by `mem` and
`out_log` as explained in the header of this file. -/
structure z80_t where
  a : Nat
  f : Flags
  bc : Nat
  de : Nat
  hl : Nat
  pc : Nat
  sp : Nat
  ix : Nat
  iy : Nat
  i : Nat
  r : Nat
  af_ : Nat
  bc_ : Nat
  de_ : Nat
  hl_ : Nat
  interrupt_mode : Nat
  interrupts_enabled : Bool
  next_interrupts_enabled : Bool
  interrupt_pending : Bool
  prev_immediate : Nat
  instructions : Nat
  mem : Nat → Nat
  out_log : List (Nat × Nat)

/-- The 16-bit registers that can appear as the source of the 16-bit
`instr_adc` template instantiations (`ADC HL,rr`, ED 4A/5A/6A/7A). -/
inductive Reg16 where
  | BC
  | DE
  | HL
  | SP

/-- `get_register` for a 16-bit register (instructions.cpp). -/
def get16 (s : z80_t) : Reg16 → Nat
  | .BC => u16 s.bc
  | .DE => u16 s.de
  | .HL => u16 s.hl
  | .SP => u16 s.sp

/-- The 8-bit registers used by the claims below. -/
inductive Reg8 where
  | A
  | B
  | C
  | D
  | E
  | H
  | L

/-- `get_register` for an 8-bit register (instructions.cpp): `A` directly,
the others through the `Bitfield` halves of the 16-bit pairs
(`operator[]` of util/bitfield.h, src/unnamed/part_006). -/
def get8 (s : z80_t) : Reg8 → Nat
  | .A => u8 s.a
  | .B => hi8 s.bc
  | .C => lo8 s.bc
  | .D => hi8 s.de
  | .E => lo8 s.de
  | .H => hi8 s.hl
  | .L => lo8 s.hl

/-- `set_register` for an 8-bit register (instructions.cpp), writing the
halves through `Bitfield<WideRegister>` `FieldRef::operator=` (util/bitfield.h,
src/unnamed/part_006); for the `Lo` field (`0x00FF`, shift 0) the assignment
is `raw = (raw & 0xFF00) | value`. -/
def set8 (s : z80_t) (r : Reg8) (v : Nat) : z80_t :=
  match r with
  | .A => { s with a := u8 v }
  | .B => { s with bc := set_hi8 s.bc v }
  | .C => { s with bc := (u16 s.bc &&& 0xFF00) ||| u8 v }
  | .D => { s with de := set_hi8 s.de v }
  | .E => { s with de := (u16 s.de &&& 0xFF00) ||| u8 v }
  | .H => { s with hl := set_hi8 s.hl v }
  | .L => { s with hl := (u16 s.hl &&& 0xFF00) ||| u8 v }

/-- `parity(u8 value)` (instructions.cpp): true iff the 8-bit value has an
even number of set bits. -/
def parity (value : Nat) : Bool :=
  let value := u8 value
  let num_1_bits := (List.range 8).foldl (fun acc i => acc + ((value >>> i) &&& 1)) 0
  decide (num_1_bits % 2 = 0)

/-- `carry(int bit, u16 a, u16 b, bool c)` (instructions.cpp): bit `bit` of
`(a + b + c) XOR a XOR b`. -/
def carry (bit : Nat) (a b : Nat) (c : Bool) : Bool :=
  let a := u16 a
  let b := u16 b
  let result := a + b + (cond c 1 0)
  let cr := result ^^^ a ^^^ b
  decide (cr &&& (1 <<< bit) ≠ 0)

/-- `vflag_16(u16 a, u16 b, u16 r)` (instructions.cpp): 16-bit signed
overflow from the sign bits of the operands and the result. -/
def vflag_16 (a b r : Nat) : Bool :=
  decide ((u16 a &&& 0x8000) = (u16 b &&& 0x8000) ∧ (u16 a &&& 0x8000) ≠ (u16 r &&& 0x8000))

/-- The 16-bit branch of `instr_adc<Register dst, Register src>`
(instructions.cpp lines 649-665), instantiated with `dst = HL` as in the ED
dispatch table (`ADC HL,rr`). `u32 res = op1 + op2 + carry-in`; the stored
result is `res & 0xFFFF`; note that the Z flag is computed from the
untruncated `res`, while S compares the sign bit of the truncated result
(`(s16)(res & 0xFFFF) < 0`) and `vflag_16` receives `res` truncated to
`u16` by its parameter type. Returns the new state and the T-state count. -/
def instr_adc16 (rr : Reg16) (s : z80_t) : z80_t × Nat :=
  let op1 := u16 s.hl
  let op2 := get16 s rr
  let res := op1 + op2 + (cond s.f.c 1 0)
  let f := { s.f with
    z := decide (res = 0)
    s := decide (((res &&& 0xFFFF) >>> 15) &&& 1 = 1)
    p_v := vflag_16 op1 op2 (u16 res)
    h := carry 12 op1 op2 s.f.c
    n := false
    c := carry 16 op1 op2 s.f.c
    b3 := decide ((res >>> 11) &&& 1 = 1)
    b5 := decide ((res >>> 13) &&& 1 = 1) }
  ({ s with hl := res &&& 0xFFFF, f := f }, 11)

/-- `instr_rla()` (instructions.cpp lines 1056-1062): rotate A left through
carry. The source updates only the C flag (no other flag is written). -/
def instr_rla (s : z80_t) : z80_t × Nat :=
  let new_carry := decide ((u8 s.a >>> 7) &&& 1 = 1)
  let a1 := u8 (u8 s.a <<< 1)
  let a2 := a1 ||| (cond s.f.c 1 0)
  ({ s with a := a2, f := { s.f with c := new_carry } }, 4)

/-- `instr_rra()` (instructions.cpp lines 1347-1353): rotate A right through
carry. The source updates only the C flag (no other flag is written). -/
def instr_rra (s : z80_t) : z80_t × Nat :=
  let new_carry := decide (u8 s.a &&& 1 = 1)
  let a1 := u8 s.a >>> 1
  let a2 := a1 ||| ((cond s.f.c 1 0) <<< 7)
  ({ s with a := a2, f := { s.f with c := new_carry } }, 4)

/-- `std::rotl` on a `u8`. -/
def rotl8 (v : Nat) : Nat :=
  let v := u8 v
  u8 (v <<< 1) ||| (v >>> 7)

/-- `instr_rlc<Register src>` (instructions.cpp lines 1124-1138), the
register form of `RLC` in the CB dispatch table. Note that the source
assigns `z80.f.s = res & 1` (bit 0 of the result). -/
def instr_rlc_reg (src : Reg8) (s : z80_t) : z80_t × Nat :=
  let value := get8 s src
  let res := rotl8 value
  let s1 := set8 s src res
  ({ s1 with f := { s1.f with
      s := decide (res &&& 1 = 1)
      z := decide (res = 0)
      p_v := parity res
      n := false
      h := false
      c := decide (res &&& 1 = 1)
      b3 := decide ((res >>> 3) &&& 1 = 1)
      b5 := decide ((res >>> 5) &&& 1 = 1) } }, 8)

/-- `instr_daa()` (instructions.cpp lines 1355-1383). -/
def instr_daa (s : z80_t) : z80_t × Nat :=
  let a0 := u8 s.a
  let lo4 := a0 &&& 0xF
  let offset1 : Nat := if s.f.h || decide (lo4 > 0x9) then 0x6 else 0
  let cond_c := s.f.c || decide (a0 > 0x99)
  let offset2 := if cond_c then offset1 + 0x60 else offset1
  let c1 := if cond_c then true else s.f.c
  let a1 := if s.f.n then (a0 + 0x100 - offset2) % 0x100 else u8 (a0 + offset2)
  let h1 := if s.f.n then s.f.h && decide (lo4 < 0x6) else decide (lo4 > 9)
  ({ s with a := a1, f := { s.f with
      c := c1
      h := h1
      s := decide ((a1 >>> 7) &&& 1 = 1)
      z := decide (a1 = 0)
      p_v := parity a1
      b3 := decide ((a1 >>> 3) &&& 1 = 1)
      b5 := decide ((a1 >>> 5) &&& 1 = 1) } }, 4)

/-- `Z80::stack_push<u8>` (util.h): `z80.write_byte(--z80.sp, value)`, with
the `u16` stack pointer wrapping on decrement. -/
def stack_push8 (s : z80_t) (value : Nat) : z80_t :=
  let sp1 := u16 (s.sp + 0xFFFF)
  { s with sp := sp1, mem := upd s.mem sp1 (u8 value) }

/-- `Z80::stack_push<u16>` (util.h): push the high byte, then the low byte. -/
def stack_push16 (s : z80_t) (value : Nat) : z80_t :=
  let hi := (u16 value >>> 8) &&& 0xFF
  let lo := u16 value &&& 0xFF
  stack_push8 (stack_push8 s hi) lo

/-- `Z80::stack_pop<u8>` (util.h): `return z80.read_byte(z80.sp++)`. -/
def stack_pop8 (s : z80_t) : z80_t × Nat :=
  ({ s with sp := u16 (s.sp + 1) }, u8 (s.mem (u16 s.sp)))

/-- `Z80::stack_pop<u16>` (util.h): pop the low byte, then the high byte. -/
def stack_pop16 (s : z80_t) : z80_t × Nat :=
  let p1 := stack_pop8 s
  let p2 := stack_pop8 p1.1
  (p2.1, (p2.2 <<< 8) ||| p1.2)

/-- `instr_outi()` (instructions.cpp lines 945-955): read `(HL)`, write it to
port `C`, increment `HL`, decrement `B`. No flag is written. -/
def instr_outi (s : z80_t) : z80_t × Nat :=
  let b := u8 (s.mem (u16 s.hl))
  let port := lo8 s.bc
  let s1 := { s with out_log := (port, b) :: s.out_log }
  let s2 := { s1 with hl := u16 (s1.hl + 1) }
  let reg_b := u8 (hi8 s2.bc + 0xFF)
  let s3 := { s2 with bc := set_hi8 s2.bc reg_b }
  (s3, 16)

/-- `instr_otir()` (instructions.cpp lines 957-964): one `OUTI`, then rewind
`PC` by 2 while `B` is nonzero. -/
def instr_otir (s : z80_t) : z80_t × Nat :=
  let p := instr_outi s
  let s1 := p.1
  let cycles := p.2
  if hi8 s1.bc ≠ 0 then ({ s1 with pc := u16 (s1.pc + 0xFFFE) }, cycles + 5)
  else (s1, cycles)

/-- `instr_nop()` (instructions.cpp). -/
def instr_nop (s : z80_t) : z80_t × Nat := (s, 4)

/-- `instr_di()` (instructions.cpp lines 1094-1098): clears both interrupt
enables immediately. -/
def instr_di (s : z80_t) : z80_t × Nat :=
  ({ s with interrupts_enabled := false, next_interrupts_enabled := false }, 4)

/-- `instr_ei()` (instructions.cpp lines 1100-1103): sets only
`next_interrupts_enabled`. -/
def instr_ei (s : z80_t) : z80_t × Nat :=
  ({ s with next_interrupts_enabled := true }, 4)

/-- `Z80::service_interrupt()` (z80.cpp lines 35-47): clear both enables and
the pending bit, then in interrupt mode 1 push `PC` and jump to `0x0038`;
other interrupt modes are `logfatal`. -/
def service_interrupt (s : z80_t) : Option z80_t :=
  let s := { s with interrupts_enabled := false, next_interrupts_enabled := false,
                    interrupt_pending := false }
  match s.interrupt_mode with
  | 1 =>
    let s := stack_push16 s (u16 s.pc)
    some { s with pc := 0x0038 }
  | _ => none

/-- The unprefixed dispatch table (`instructions[opcode]`), restricted to the
opcodes this development needs; all other entries are unmodelled here and
yield `none`. -/
def exec_instr (opcode : Nat) (s : z80_t) : Option (z80_t × Nat) :=
  match opcode with
  | 0x00 => some (instr_nop s)
  | 0x17 => some (instr_rla s)
  | 0x1F => some (instr_rra s)
  | 0x27 => some (instr_daa s)
  | 0xF3 => some (instr_di s)
  | 0xFB => some (instr_ei s)
  | _ => none

/-- `Z80::step()` (z80.cpp lines 49-72): commit the delayed `EI` enable,
fetch the opcode at `PC`, bump `R` with bit 7 preserved, execute, then
service a pending interrupt iff `interrupts_enabled`. The `Bool` in the
result records whether the interrupt was serviced on this step. -/
def step (s : z80_t) : Option (z80_t × Bool × Nat) :=
  let s := { s with interrupts_enabled := s.next_interrupts_enabled }
  let opcode := u8 (s.mem (u16 s.pc))
  let s := { s with pc := u16 (s.pc + 1) }
  let s := { s with instructions := s.instructions + 1 }
  let r_hi := u8 s.r &&& 0x80
  let s := { s with r := r_hi ||| ((u8 s.r + 1) &&& 0x7F) }
  match exec_instr opcode s with
  | none => none
  | some (s1, cycles) =>
    if s1.interrupts_enabled && s1.interrupt_pending then
      match service_interrupt s1 with
      | none => none
      | some s2 => some (s2, true, cycles)
    else some (s1, false, cycles)

/-- All-false flags, for building concrete states. -/
def flags0 : Flags :=
  { s := false, z := false, b5 := false, h := false, b3 := false,
    p_v := false, n := false, c := false }

/-- A concrete all-zero CPU state, for building concrete states. -/
def z80_zero : z80_t :=
  { a := 0, f := flags0, bc := 0, de := 0, hl := 0, pc := 0, sp := 0,
    ix := 0, iy := 0, i := 0, r := 0, af_ := 0, bc_ := 0, de_ := 0, hl_ := 0,
    interrupt_mode := 0, interrupts_enabled := false,
    next_interrupts_enabled := false, interrupt_pending := false,
    prev_immediate := 0, instructions := 0, mem := fun _ => 0, out_log := [] }

end Z80

namespace Vdp

/-- `num_scanlines` (vdp.cpp). -/
def num_scanlines : Nat := 262

/-- `fps` (vdp.cpp). -/
def fps : Nat := 60

/-- `cycles_per_line = 3579545 / num_scanlines / fps` (vdp.cpp), with C++
integer division. -/
def cycles_per_line : Nat := 3579545 / num_scanlines / fps

/-- The VDP state: the namespace-level globals of vdp.cpp together with the
registers of vdp_register.cpp (`vdpModeControl1.raw`, `vdpModeControl2.raw`,
`mode.raw`, register 7/8/9/A latches). -/
structure VdpState where
  ctrl_high : Bool
  code : Nat
  address : Nat
  read_buffer : Nat
  vram : Nat → Nat
  cram : Nat → Nat
  screen : Nat → Nat → Nat
  cycle_counter : Nat
  hcounter : Nat
  vcounter : Nat
  line_counter : Nat
  line_interrupt : Bool
  frame_interrupt : Bool
  modeControl1 : Nat
  modeControl2 : Nat
  mode : Nat
  overscan_bg_color : Nat
  bg_x_scroll : Nat
  bg_y_scroll : Nat
  lc_reload : Nat

/-- `Vdp::register_write(u8 reg, u8 value)` (vdp_register.cpp). Registers
2-5 are `logfatal` unless the value is `0xFF`; registers above `0xA` are
`logfatal`. For register 0 the mode bits M2/M4 are taken from the freshly
written control-1 byte; for register 1 the source reads the M1/M3 bits out
of `vdpModeControl1` (not the just-written control-2 byte), which is
embedded exactly as written. -/
def register_write (reg value : Nat) (s : VdpState) : Option VdpState :=
  let reg := u8 reg
  let value := u8 value
  let mode0 := bit_set (bit_set s.mode 0x2 1 (bit_get value 0x2 1)) 0x8 3 (bit_get value 0x4 2)
  let mode1 := bit_set (bit_set s.mode 0x1 0 (bit_get s.modeControl1 0x10 4)) 0x4 2 (bit_get s.modeControl1 0x8 3)
  match reg with
  | 0 => some { s with modeControl1 := value, mode := mode0 }
  | 1 => some { s with modeControl2 := value, mode := mode1 }
  | 2 => if value ≠ 0xFF then none else some s
  | 3 => if value ≠ 0xFF then none else some s
  | 4 => if value ≠ 0xFF then none else some s
  | 5 => if value ≠ 0xFF then none else some s
  | 6 => some s
  | 7 => some { s with overscan_bg_color := value &&& 0xF }
  | 8 => some { s with bg_x_scroll := value }
  | 9 => some { s with bg_y_scroll := value }
  | 0xA => some { s with lc_reload := value }
  | _ => none

/-- `Vdp::process_command()` (vdp.cpp lines 49-65). Command 0 (VRAM read)
prefetches `vram[address]` into the read buffer and increments the `u16`
`address` field without any 14-bit mask. -/
def process_command (s : VdpState) : Option VdpState :=
  match s.code with
  | 0 => some { s with read_buffer := u8 (s.vram s.address), address := u16 (s.address + 1) }
  | 1 => some s
  | 2 => register_write ((s.address >>> 8) &&& 0xF) (s.address &&& 0xFF) s
  | 3 => some s
  | _ => none

/-- `Vdp::write_control(u8 value)` (vdp.cpp lines 67-78). -/
def write_control (value : Nat) (s : VdpState) : Option VdpState :=
  let value := u8 value
  if s.ctrl_high then
    let s := { s with address := (s.address &&& 0x00FF) ||| ((value <<< 8) &&& 0x3F00),
                      code := (value >>> 6) &&& 0x3 }
    match process_command s with
    | none => none
    | some s1 => some { s1 with ctrl_high := false }
  else
    some { s with address := (s.address &&& 0xFF00) ||| value, ctrl_high := true }

/-- `Vdp::write_data(u8 value)` (vdp.cpp lines 80-96). Note that the CRAM
write indexes `cram` with the raw (unmasked) `address`, exactly as the
source does; only the post-increment is masked to 14 bits. -/
def write_data (value : Nat) (s : VdpState) : Option VdpState :=
  let value := u8 value
  let s := { s with read_buffer := value, ctrl_high := false }
  match s.code with
  | 1 => some { s with vram := upd s.vram s.address value,
                       address := (s.address + 1) &&& 0x3FFF }
  | 2 => some { s with vram := upd s.vram s.address value,
                       address := (s.address + 1) &&& 0x3FFF }
  | 3 => some { s with cram := upd s.cram s.address (value &&& 0x3F),
                       address := (s.address + 1) &&& 0x3FFF }
  | _ => none

/-- `Vdp::render_scanline_mode4(unsigned line)` (vdp.cpp lines 98-150),
as a function of `vram`, `cram` and the `screen` buffer it updates. The
`assert(tile_y < 32)`, the `vflip` branch, the second-palette branch and the
color-index sanity check are the aborting paths. -/
def render_scanline_mode4 (vram cram : Nat → Nat) (screen : Nat → Nat → Nat)
    (line : Nat) : Option (Nat → Nat → Nat) :=
  let tile_y := line / 8
  let intile_y := line % 8
  if tile_y ≥ 32 then none
  else
    let nametable_address := 0x3800 ||| (tile_y <<< 6)
    (List.range 32).foldlM (fun scr tile_x =>
      let addr := nametable_address ||| (tile_x <<< 1)
      let entry := u8 (vram addr) ||| (u8 (vram (addr + 1)) <<< 8)
      let pattern_index := ((entry &&& 0x1FF) * 32) + (intile_y * 4)
      let hflip := decide ((entry >>> 9) &&& 1 ≠ 0)
      if (entry >>> 10) &&& 1 ≠ 0 then none
      else if (entry >>> 11) &&& 1 ≠ 0 then none
      else
        let bp : Nat → Nat := fun i => u8 (vram (pattern_index + i))
        (List.range 8).foldlM (fun scr pixel =>
          let bit := if hflip then pixel else 7 - pixel
          let color_index := (List.range 4).foldl
            (fun ci bpindex => ci ||| (((bp bpindex >>> bit) &&& 1) <<< bpindex)) 0
          if color_index > 32 then none
          else some (upd2 scr line (tile_x * 8 + pixel) (u8 (cram color_index)))) scr)
      screen

/-- `Vdp::scanline()` (vdp.cpp lines 153-180). Modes `0b1010` and `0b1011`
share the mode-4 body; every other mode value is `logfatal`. The frame
check reads bit 5 of `vdpModeControl1` (the source indexes `vdpModeControl1`
with `VdpModeControl2::FrameInterruptEnable`); `render_frame()` only
presents `screen` to the host and is outside the core. A line-counter
underflow (`--line_counter == 0xFF`) is `logfatal`. -/
def scanline (s : VdpState) : Option VdpState :=
  let step1 : Option VdpState :=
    match s.mode with
    | 0b1010 =>
      let r : Option VdpState :=
        if s.vcounter ≤ 192 then
          match render_scanline_mode4 s.vram s.cram s.screen s.vcounter with
          | none => none
          | some scr => some { s with screen := scr }
        else some s
      match r with
      | none => none
      | some s1 =>
        if s1.vcounter = 224 ∧ bit_get s1.modeControl1 0x20 5 ≠ 0 then
          some { s1 with frame_interrupt := true }
        else some s1
    | 0b1011 =>
      let r : Option VdpState :=
        if s.vcounter ≤ 192 then
          match render_scanline_mode4 s.vram s.cram s.screen s.vcounter with
          | none => none
          | some scr => some { s with screen := scr }
        else some s
      match r with
      | none => none
      | some s1 =>
        if s1.vcounter = 224 ∧ bit_get s1.modeControl1 0x20 5 ≠ 0 then
          some { s1 with frame_interrupt := true }
        else some s1
    | _ => none
  match step1 with
  | none => none
  | some s2 =>
    let step2 : Option VdpState :=
      if s2.vcounter ≤ 192 then
        let lc := (s2.line_counter + 0xFF) % 0x100
        if lc = 0xFF then none
        else some { s2 with line_counter := lc }
      else some { s2 with line_counter := u8 s2.lc_reload }
    match step2 with
    | none => none
    | some s3 => some { s3 with vcounter := (s3.vcounter + 1) % num_scanlines }

/-- `Vdp::step(unsigned cycles)` (vdp.cpp lines 182-188): accumulate
`cycle_counter`; a single `if` (not a `while`) subtracts `cycles_per_line`
and runs `scanline()`. -/
def step (cycles : Nat) (s : VdpState) : Option VdpState :=
  let s := { s with cycle_counter := s.cycle_counter + cycles }
  if s.cycle_counter ≥ cycles_per_line then
    scanline { s with cycle_counter := s.cycle_counter - cycles_per_line }
  else some s

/-- `Vdp::get_status()` (vdp.cpp lines 194-206): assemble the status byte
(`frame_interrupt` in bit 7, zero in bits 6 and 5, `0b1111` in the low
bits), then clear both interrupt flags. Returns `(value, new state)`. -/
def get_status (s : VdpState) : Nat × VdpState :=
  let val : Nat := 0
  let val := val ||| ((cond s.frame_interrupt 1 0) <<< 7)
  let val := val ||| (0 <<< 6)
  let val := val ||| (0 <<< 5)
  let val := val ||| 0b1111
  (val, { s with frame_interrupt := false, line_interrupt := false })

/-- The VDP-facing operations of the I/O port map that touch the VDP state:
a control-port write (port `0xBF` out), a data-port write (port `0xBE` out)
and a data-port read (port `0xBE` in, which returns `read_buffer` without
modifying any state, bus.cpp `port_in`). -/
inductive VdpOp where
  | ctrl (v : Nat)
  | data (v : Nat)
  | dataRead

/-- One VDP port operation. -/
def vdp_apply : VdpOp → VdpState → Option VdpState
  | .ctrl v, s => write_control v s
  | .data v, s => write_data v s
  | .dataRead, s => some s

/-- A sequence of VDP port operations. -/
def vdp_run (s : VdpState) : List VdpOp → Option VdpState
  | [] => some s
  | op :: ops =>
    match vdp_apply op s with
    | none => none
    | some s1 => vdp_run s1 ops

/-- True iff the operation, applied in this state, completes a control-port
command with command code 0 (the VRAM-read prefetch). -/
def prefetch_in (op : VdpOp) (s : VdpState) : Bool :=
  match op with
  | .ctrl v => s.ctrl_high && decide (((u8 v) >>> 6) &&& 0x3 = 0)
  | _ => false

/-- True iff no operation of the sequence completes a command code 0
(VRAM-read prefetch) along the run. -/
def vdp_run_noprefetch (s : VdpState) : List VdpOp → Bool
  | [] => true
  | op :: ops =>
    !(prefetch_in op s) &&
      (match vdp_apply op s with
       | none => true
       | some s1 => vdp_run_noprefetch s1 ops)

/-- A concrete all-zero VDP state (the reset state with `line_counter` and
`lc_reload` also zero), for building concrete states. -/
def vdpZero : VdpState :=
  { ctrl_high := false, code := 0, address := 0, read_buffer := 0,
    vram := fun _ => 0, cram := fun _ => 0, screen := fun _ _ => 0,
    cycle_counter := 0, hcounter := 0, vcounter := 0, line_counter := 0,
    line_interrupt := false, frame_interrupt := false,
    modeControl1 := 0, modeControl2 := 0, mode := 0,
    overscan_bg_color := 0, bg_x_scroll := 0, bg_y_scroll := 0, lc_reload := 0 }

end Vdp

namespace Rom

/-- `Rom::rom.data` (the loaded cartridge image) together with
`Rom::bank_offsets[3]` (byte offsets of the three 16 KiB slots). -/
structure RomState where
  data : Nat → Nat
  bank_offsets : Nat → Nat

/-- `Rom::read(u16 address)` (rom.cpp lines 21-32): index the cartridge
image at `bank_offsets[slot] + (address & 0x3FFF)` for the three slots below
`0xC000`, and directly for the (unreachable on this bus) addresses above. -/
def read (r : RomState) (address : Nat) : Nat :=
  let address := u16 address
  let in_slot_offset := address &&& 0x3FFF
  if address ≤ 0x3FFF then u8 (r.data (r.bank_offsets 0 + in_slot_offset))
  else if address ≤ 0x7FFF then u8 (r.data (r.bank_offsets 1 + in_slot_offset))
  else if address ≤ 0xBFFF then u8 (r.data (r.bank_offsets 2 + in_slot_offset))
  else u8 (r.data address)

end Rom

namespace Bus

/-- The bus state (bus.cpp): the memory-enable flags programmed through port
`0x3E`, `Bios::data`, `Mem::ram` and the cartridge ROM state. -/
structure BusState where
  enable_joysticks : Bool
  enable_bios : Bool
  enable_ram : Bool
  enable_card_rom : Bool
  enable_cart_rom : Bool
  enable_ext_port : Bool
  bios : Nat → Nat
  ram : Nat → Nat
  rom : Rom.RomState

/-- `Bus::read_byte(u16 address)` (bus.cpp lines 28-47): below `0xC000`,
start from `0xFF` and AND in the BIOS byte (`Bios::data[address & 0x1FFF]`)
when the BIOS is enabled and the banked cartridge byte (`Rom::read`) when
the cartridge is enabled; from `0xC000` on, return `Mem::ram[address &
0x1FFF]` (so `0xE000-0xFFFF` mirrors the 8 KiB RAM). -/
def read_byte (b : BusState) (address : Nat) : Nat :=
  let address := u16 address
  if address ≤ 0xBFFF then
    let value : Nat := 0xFF
    let value := if b.enable_bios then value &&& u8 (b.bios (address &&& 0x1FFF)) else value
    let value := if b.enable_cart_rom then value &&& Rom.read b.rom address else value
    value
  else
    u8 (b.ram (address &&& 0x1FFF))

end Bus

/-- Concrete CPU state for the 16-bit ADC evaluation: `HL=0xFFFF`,
`DE=0x0001`, all flags clear. -/
def c1_state : Z80.z80_t := { Z80.z80_zero with hl := 0xFFFF, de := 0x0001 }

/-- Concrete CPU state with `B = 0x40`. -/
def c3_state : Z80.z80_t := { Z80.z80_zero with bc := 0x4000 }

/-- Concrete CPU state for the DAA scenario: `A=0x9A`, `F.C=F.H=F.N=0`. -/
def c4_state : Z80.z80_t := { Z80.z80_zero with a := 0x9A }

/-- Concrete CPU state with `SP = 1`, so that a 16-bit push wraps the stack
pointer through zero. -/
def c8_state : Z80.z80_t := { Z80.z80_zero with sp := 0x0001 }

/-- Concrete CPU state about to execute `EI` (opcode `0xFB` at `PC = 0`,
`NOP` everywhere after) with interrupts disabled, an interrupt pending and
interrupt mode 1. -/
def c9_state : Z80.z80_t :=
  { Z80.z80_zero with interrupt_mode := 1, interrupt_pending := true,
                      mem := fun a => if a = 0 then 0xFB else 0 }

/-- Concrete VDP state in SMS mode 4 on scanline 200. -/
def c6_cex_state : Vdp.VdpState := { Vdp.vdpZero with mode := 0b1011, vcounter := 200 }

/-- Concrete VDP state in SMS mode 4 at the top of the frame. -/
def c6_wit_state : Vdp.VdpState := { Vdp.vdpZero with mode := 0b1011 }

/-- The state `c6_wit_state` after a `step(100)` call. -/
def c6_wit_post : Vdp.VdpState := { c6_wit_state with cycle_counter := 100 }

/-- The VDP state reached from `vdpZero` by the control-port writes `0x12`,
`0x7F` (a VRAM-write command at address `0x3F12`). -/
def c5_wit_post : Vdp.VdpState :=
  { Vdp.vdpZero with ctrl_high := false, code := 1, address := 0x3F12 }

/-- Concrete bus state: BIOS enabled, cartridge disabled, with constant
backing stores. -/
def c7_bus : Bus.BusState :=
  { enable_joysticks := true, enable_bios := true, enable_ram := true,
    enable_card_rom := false, enable_cart_rom := false, enable_ext_port := false,
    bios := fun _ => 0xAA, ram := fun _ => 0x55,
    rom := { data := fun _ => 0x33, bank_offsets := fun _ => 0 } }

/-- Truncation to 16 bits is idempotent. -/
theorem u16_idem (x : Nat) : u16 (u16 x) = u16 x := by
  simp only [SMS.u16]
  omega

/-- Masking with `0xFF` is reduction modulo 256. -/
theorem and_ff_right (v : Nat) : v &&& 0xFF = v % 0x100 := by
  have h := Nat.and_pow_two_sub_one_eq_mod v 8
  norm_num at h
  exact h

/-- Masking with `0xFF` on the left is reduction modulo 256. -/
theorem and_ff_left (v : Nat) : 0xFF &&& v = v % 0x100 := by
  rw [Nat.and_comm]
  exact and_ff_right v

/-- Masking with `0x1FFF` is reduction modulo `0x2000`. -/
theorem and_1fff (v : Nat) : v &&& 0x1FFF = v % 0x2000 := by
  have h := Nat.and_pow_two_sub_one_eq_mod v 13
  norm_num at h
  exact h

/-- Masking an 8-bit value with `0xFF` on the left is the identity. -/
theorem and_ff_u8_left (x : Nat) : 0xFF &&& SMS.u8 x = SMS.u8 x := by
  have h := and_ff_left (SMS.u8 x)
  simp only [SMS.u8] at h ⊢
  omega

/-- Masking an 8-bit value with `0xFF` on the right is the identity. -/
theorem and_ff_u8_right (x : Nat) : SMS.u8 x &&& 0xFF = SMS.u8 x := by
  have h := and_ff_right (SMS.u8 x)
  simp only [SMS.u8] at h ⊢
  omega

/-- `Rom::read` always returns a byte. -/
theorem rom_read_lt (r : Rom.RomState) (a : Nat) : Rom.read r a < 0x100 := by
  simp only [Rom.read]
  split
  · exact Nat.mod_lt _ (by decide)
  · split
    · exact Nat.mod_lt _ (by decide)
    · split
      · exact Nat.mod_lt _ (by decide)
      · exact Nat.mod_lt _ (by decide)

/-- Masking a `Rom::read` result with `0xFF` is the identity. -/
theorem and_ff_rom (r : Rom.RomState) (a : Nat) : 0xFF &&& Rom.read r a = Rom.read r a := by
  have h1 := and_ff_left (Rom.read r a)
  have h2 := rom_read_lt r a
  omega

/-- Reassembling the high and low bytes of a 16-bit value gives it back. -/
theorem hi_lo_or (w : Nat) (hw : w < 0x10000) :
    (((w >>> 8) &&& 0xFF) <<< 8) ||| (w &&& 0xFF) = w := by
  have h8 : w >>> 8 = w / 0x100 := by
    rw [Nat.shiftRight_eq_div_pow]
  have hdiv : w / 0x100 < 0x100 := by omega
  have hlo : w &&& 0xFF = w % 0x100 := and_ff_right w
  have hhi : (w >>> 8) &&& 0xFF = w / 0x100 := by
    rw [h8, and_ff_right]
    omega
  have hm := Nat.mul_add_lt_is_or (b := w % 0x100) (i := 8) (by omega) (w / 0x100)
  rw [hhi, hlo, Nat.shiftLeft_eq, Nat.mul_comm, ← hm]
  omega

/-- C1. The claim says the Z flag of `ADC HL,rr` is set iff the 16-bit value
stored in `HL` is zero. Evaluating the source's `instr_adc` at the failing
input `HL=0xFFFF`, `DE=0x0001`, `F.C=0`: the stored result is `HL=0x0000`,
yet Z comes out clear, because the source computes Z from the untruncated
sum `res` (`res == 0`) instead of from `res & 0xFFFF`. -/
theorem adc16_z_flag_from_untruncated_sum :
    (Z80.instr_adc16 Z80.Reg16.DE c1_state).1.hl = 0 ∧
    (Z80.instr_adc16 Z80.Reg16.DE c1_state).1.f.z = false := by
  exact ⟨rfl, rfl⟩

/-- C2 (counterexample). The claim says a VDP status read returns
`(frame_interrupt<<7) | 0x1F`. In the all-clear state the source returns
`0x0F`, not `0x1F`: the low bits ORed in are `0b1111`. -/
theorem get_status_not_0x1F :
    ¬ ((Vdp.get_status Vdp.vdpZero).1 =
        ((cond Vdp.vdpZero.frame_interrupt 1 0) <<< 7) ||| 0x1F) := by
  decide

/-- C2 (amended). A VDP status read returns `(frame_interrupt<<7) | 0x0F`
and, as a side effect, clears both `frame_interrupt` and `line_interrupt`. -/
theorem get_status_returns_0x0F_and_clears_interrupts (s : Vdp.VdpState) :
    (Vdp.get_status s).1 = ((cond s.frame_interrupt 1 0) <<< 7) ||| 0x0F ∧
    (Vdp.get_status s).2.frame_interrupt = false ∧
    (Vdp.get_status s).2.line_interrupt = false := by
  refine ⟨?_, rfl, rfl⟩
  cases hf : s.frame_interrupt <;> simp [Vdp.get_status, hf]

/-- C3. The claim says every rotate/shift sets C from the bit shifted out
and clears N and H, with `RLA`/`RRA` also updating X and Y, and the register
forms setting S from the 8-bit result. In the source, `instr_rla` and
`instr_rra` write only the C flag — N, H, X (bit 3) and Y (bit 5) are left
exactly as they were — and the register form of `RLC` assigns S from bit 0
of the result: rotating `B = 0x40` yields the result `0x80` (sign bit set)
with S clear. -/
theorem rotate_flags_incomplete :
    (∀ s : Z80.z80_t,
      (Z80.instr_rla s).1.f.n = s.f.n ∧ (Z80.instr_rla s).1.f.h = s.f.h ∧
      (Z80.instr_rla s).1.f.b3 = s.f.b3 ∧ (Z80.instr_rla s).1.f.b5 = s.f.b5) ∧
    (∀ s : Z80.z80_t,
      (Z80.instr_rra s).1.f.n = s.f.n ∧ (Z80.instr_rra s).1.f.h = s.f.h ∧
      (Z80.instr_rra s).1.f.b3 = s.f.b3 ∧ (Z80.instr_rra s).1.f.b5 = s.f.b5) ∧
    (Z80.get8 (Z80.instr_rlc_reg Z80.Reg8.B c3_state).1 Z80.Reg8.B = 0x80 ∧
      (Z80.instr_rlc_reg Z80.Reg8.B c3_state).1.f.s = false) := by
  exact ⟨fun s => ⟨rfl, rfl, rfl, rfl⟩, fun s => ⟨rfl, rfl, rfl, rfl⟩, by decide, by decide⟩

/-- C4 (counterexample). The claim says that after `DAA` on `A=0x9A`,
`F.C=0`, `F.H=0`, `F.N=0` the half-carry flag is clear; the source (in
agreement with real Z80 behaviour, `H = lo-nibble > 9` for `N=0`) sets it. -/
theorem daa_0x9A_halfcarry_cex :
    ¬ ((Z80.instr_daa c4_state).1.f.h = false) := by
  decide

/-- C4 (amended). `A=0x9A, F.C=0, F.H=0, F.N=0`; executing `DAA` yields
`A=0x00`, `F.C=1`, `F.Z=1`, `F.H=1`, `F.P=1`. -/
theorem daa_0x9A_post_state :
    (Z80.instr_daa c4_state).1.a = 0 ∧
    (Z80.instr_daa c4_state).1.f.c = true ∧
    (Z80.instr_daa c4_state).1.f.z = true ∧
    (Z80.instr_daa c4_state).1.f.h = true ∧
    (Z80.instr_daa c4_state).1.f.p_v = true := by
  refine ⟨?_, ?_, ?_, ?_, ?_⟩ <;> decide

/-- C7. For every 16-bit address: below `0xC000`, `Bus::read_byte` returns
the bitwise AND of the BIOS byte `BIOS[addr & 0x1FFF]` (when the BIOS is
enabled) and the banked cartridge byte `Rom::read(addr)` (when the cartridge
is enabled), each disabled source contributing `0xFF`; from `0xC000` on it
returns `RAM[addr & 0x1FFF]`, so `0xE000-0xFFFF` mirrors the 8 KiB RAM. -/
theorem bus_read_byte_spec (b : Bus.BusState) (addr k : Nat)
    (h : addr < 0x10000) (hk : k < 0x2000) :
    (addr < 0xC000 →
      Bus.read_byte b addr =
        ((if b.enable_bios then SMS.u8 (b.bios (addr &&& 0x1FFF)) else 0xFF) &&&
         (if b.enable_cart_rom then Rom.read b.rom addr else 0xFF))) ∧
    (0xC000 ≤ addr → Bus.read_byte b addr = SMS.u8 (b.ram (addr &&& 0x1FFF))) ∧
    Bus.read_byte b (0xE000 + k) = Bus.read_byte b (0xC000 + k) := by
  refine ⟨?_, ?_, ?_⟩
  · intro h1
    simp only [Bus.read_byte, SMS.u16, Nat.mod_eq_of_lt h]
    rw [if_pos (by omega)]
    cases hb : b.enable_bios <;> cases hc : b.enable_cart_rom <;>
      simp [hb, hc, and_ff_u8_left, and_ff_u8_right, and_ff_rom]
  · intro h1
    simp only [Bus.read_byte, SMS.u16, Nat.mod_eq_of_lt h]
    rw [if_neg (by omega)]
  · simp only [Bus.read_byte, SMS.u16]
    rw [Nat.mod_eq_of_lt (by omega), Nat.mod_eq_of_lt (by omega)]
    rw [if_neg (by omega), if_neg (by omega)]
    have e : (0xE000 + k) &&& 0x1FFF = (0xC000 + k) &&& 0x1FFF := by
      rw [and_1fff, and_1fff]
      omega
    rw [e]

/-- C7 (witness): the bus contract at `addr = 0x1234` and mirror offset
`k = 0x123` on the concrete bus state `c7_bus`. -/
theorem bus_read_byte_spec_witness :
    0x1234 < 0x10000 ∧ 0x123 < 0x2000 ∧
    ((0x1234 < 0xC000 →
      Bus.read_byte c7_bus 0x1234 =
        ((if c7_bus.enable_bios then SMS.u8 (c7_bus.bios (0x1234 &&& 0x1FFF)) else 0xFF) &&&
         (if c7_bus.enable_cart_rom then Rom.read c7_bus.rom 0x1234 else 0xFF))) ∧
     (0xC000 ≤ 0x1234 → Bus.read_byte c7_bus 0x1234 = SMS.u8 (c7_bus.ram (0x1234 &&& 0x1FFF))) ∧
     Bus.read_byte c7_bus (0xE000 + 0x123) = Bus.read_byte c7_bus (0xC000 + 0x123)) :=
  ⟨by decide, by decide, bus_read_byte_spec c7_bus 0x1234 0x123 (by decide) (by decide)⟩

/-- C8. For every 16-bit word and every CPU state (stack pointer and
memory), pushing the word and popping it back yields the word and restores
`SP`; moreover the push stores the high byte at `SP-1` (written first) and
the low byte at `SP-2` (written second), with the stack pointer decreasing
(wrapping as a `u16`). -/
theorem stack_push_pop_roundtrip (s : Z80.z80_t) (w : Nat)
    (hw : w < 0x10000) (hsp : s.sp < 0x10000) :
    (Z80.stack_pop16 (Z80.stack_push16 s w)).2 = w ∧
    (Z80.stack_pop16 (Z80.stack_push16 s w)).1.sp = s.sp ∧
    (Z80.stack_push16 s w).sp = (s.sp + 0xFFFE) % 0x10000 ∧
    (Z80.stack_push16 s w).mem ((s.sp + 0xFFFF) % 0x10000) = (w >>> 8) &&& 0xFF ∧
    (Z80.stack_push16 s w).mem ((s.sp + 0xFFFE) % 0x10000) = w &&& 0xFF := by
  have hlo8 : w &&& 0xFF = w % 0x100 := and_ff_right w
  have hhi8 : (w >>> 8) &&& 0xFF = (w >>> 8) % 0x100 := and_ff_right (w >>> 8)
  refine ⟨?_, ?_, ?_, ?_, ?_⟩ <;>
    simp only [Z80.stack_pop16, Z80.stack_pop8, Z80.stack_push16, Z80.stack_push8,
      SMS.u16, SMS.u8, SMS.upd, Nat.mod_eq_of_lt hw, hlo8, hhi8]
  · rw [if_neg (by omega), if_pos (by omega), if_pos (by omega)]
    have e1 : w >>> 8 % 0x100 % 0x100 % 0x100 = (w >>> 8) &&& 0xFF := by
      rw [hhi8]
      omega
    have e2 : w % 0x100 % 0x100 % 0x100 = w &&& 0xFF := by
      rw [hlo8]
      omega
    rw [e1, e2]
    exact hi_lo_or w hw
  · omega
  · omega
  · rw [if_neg (by omega), if_pos trivial]
    omega
  · rw [if_pos (by omega)]
    omega

/-- C8 (witness): the round trip at `SP = 1`, `w = 0xABCD`, where the push
wraps the stack pointer through zero. -/
theorem stack_push_pop_roundtrip_witness :
    0xABCD < 0x10000 ∧ c8_state.sp < 0x10000 ∧
    ((Z80.stack_pop16 (Z80.stack_push16 c8_state 0xABCD)).2 = 0xABCD ∧
     (Z80.stack_pop16 (Z80.stack_push16 c8_state 0xABCD)).1.sp = c8_state.sp ∧
     (Z80.stack_push16 c8_state 0xABCD).sp = (c8_state.sp + 0xFFFE) % 0x10000 ∧
     (Z80.stack_push16 c8_state 0xABCD).mem ((c8_state.sp + 0xFFFF) % 0x10000) = (0xABCD >>> 8) &&& 0xFF ∧
     (Z80.stack_push16 c8_state 0xABCD).mem ((c8_state.sp + 0xFFFE) % 0x10000) = 0xABCD &&& 0xFF) :=
  ⟨by decide, by decide, stack_push_pop_roundtrip c8_state 0xABCD (by decide) (by decide)⟩

/-- `register_write` never touches the VDP address latch. -/
theorem register_write_keeps_addr (reg value : Nat) (s s2 : Vdp.VdpState)
    (h : Vdp.register_write reg value s = some s2) : s2.address = s.address := by
  simp only [Vdp.register_write] at h
  split at h <;>
    (try split at h) <;>
    first
      | exact Option.noConfusion h
      | (injection h with h2; subst h2; rfl)

/-- A single VDP port operation that does not complete a command-code-0
control write keeps the address latch below `0x4000`. -/
theorem vdp_apply_keeps_addr (op : Vdp.VdpOp) (s s2 : Vdp.VdpState)
    (h : Vdp.vdp_apply op s = some s2) (hnp : Vdp.prefetch_in op s = false)
    (ha : s.address < 0x4000) : s2.address < 0x4000 := by
  cases op with
  | dataRead =>
    simp only [Vdp.vdp_apply] at h
    injection h with h2
    subst h2
    exact ha
  | data v =>
    simp only [Vdp.vdp_apply, Vdp.write_data] at h
    split at h <;>
      first
        | exact Option.noConfusion h
        | (injection h with h2
           subst h2
           dsimp only
           have hle : (s.address + 1) &&& 0x3FFF ≤ 0x3FFF := Nat.and_le_right
           omega)
  | ctrl v =>
    simp only [Vdp.vdp_apply, Vdp.write_control] at h
    simp only [Vdp.prefetch_in] at hnp
    split at h
    · rename_i hctrl
      rw [hctrl] at hnp
      simp only [Bool.true_and, decide_eq_false_iff_not] at hnp
      have haddr1 : ((s.address &&& 0xFF) ||| ((SMS.u8 v <<< 8) &&& 0x3F00)) < 0x4000 := by
        have h1 : s.address &&& 0xFF ≤ 0xFF := Nat.and_le_right
        have h2 : (SMS.u8 v <<< 8) &&& 0x3F00 ≤ 0x3F00 := Nat.and_le_right
        have h3 := Nat.or_lt_two_pow (x := s.address &&& 0xFF)
          (y := (SMS.u8 v <<< 8) &&& 0x3F00) (n := 14) (by omega) (by omega)
        omega
      split at h
      · exact Option.noConfusion h
      · rename_i t ht
        injection h with h2
        subst h2
        simp only [Vdp.process_command] at ht
        split at ht <;>
          first
            | (exact absurd (by assumption) hnp)
            | (injection ht with h3; subst h3; exact haddr1)
            | exact Option.noConfusion ht
            | (have h4 := register_write_keeps_addr _ _ _ _ ht
               rw [h4]
               exact haddr1)
    · injection h with h2
      subst h2
      dsimp only
      have h1 : s.address &&& 0xFF00 ≤ s.address := Nat.and_le_left
      have h2 : SMS.u8 v < 0x100 := Nat.mod_lt _ (by decide)
      have h3 := Nat.or_lt_two_pow (x := s.address &&& 0xFF00) (y := SMS.u8 v) (n := 14)
        (by omega) (by omega)
      omega

/-- C5 (counterexample). The claim says the address latch stays below
`0x4000` after any operation sequence, including the command-code-0 VRAM
prefetch. But completing a control write with address `0x3FFF` and code 0
(bytes `0xFF` then `0x3F`) makes the prefetch increment `address` to exactly
`0x4000` -- the increment in `process_command` has no 14-bit mask. -/
theorem vdp_prefetch_reaches_0x4000_cex :
    (Vdp.vdp_run Vdp.vdpZero [Vdp.VdpOp.ctrl 0xFF, Vdp.VdpOp.ctrl 0x3F]).map Vdp.VdpState.address
      = some 0x4000 ∧ ¬ (0x4000 < 0x4000) := ⟨rfl, by decide⟩

/-- C5 (amended). Starting from a state whose address latch is below
`0x4000`, any sequence of control-port writes, data-port writes and
data-port reads in which no control write completes a command with code 0
(the VRAM-read prefetch) keeps the latch below `0x4000`: low/high control
writes re-latch at most 14 bits, and the data-port increments wrap with
`& 0x3FFF`. Only the prefetch of command code 0 can push the latch to
`0x4000` (see the counterexample). -/
theorem vdp_address_latch_stays_below_0x4000 (s : Vdp.VdpState) (ops : List Vdp.VdpOp)
    (s2 : Vdp.VdpState)
    (hrun : Vdp.vdp_run s ops = some s2)
    (hnp : Vdp.vdp_run_noprefetch s ops = true)
    (ha : s.address < 0x4000) : s2.address < 0x4000 := by
  induction ops generalizing s with
  | nil =>
    simp only [Vdp.vdp_run] at hrun
    injection hrun with h2
    subst h2
    exact ha
  | cons op ops ih =>
    simp only [Vdp.vdp_run] at hrun
    simp only [Vdp.vdp_run_noprefetch, Bool.and_eq_true, Bool.not_eq_true'] at hnp
    split at hrun
    · exact Option.noConfusion hrun
    · rename_i s1 h1
      rw [h1] at hnp
      exact ih s1 hrun hnp.2 (vdp_apply_keeps_addr op s s1 h1 hnp.1 ha)

/-- C5 (witness): a two-byte control write (`0x12`, `0x7F`) setting up a
VRAM write at `0x3F12`, run from the reset state. -/
theorem vdp_address_latch_stays_below_0x4000_witness :
    Vdp.vdp_run Vdp.vdpZero [Vdp.VdpOp.ctrl 0x12, Vdp.VdpOp.ctrl 0x7F] = some c5_wit_post ∧
    Vdp.vdp_run_noprefetch Vdp.vdpZero [Vdp.VdpOp.ctrl 0x12, Vdp.VdpOp.ctrl 0x7F] = true ∧
    Vdp.vdpZero.address < 0x4000 ∧ c5_wit_post.address < 0x4000 :=
  ⟨rfl, rfl, by decide,
    vdp_address_latch_stays_below_0x4000 Vdp.vdpZero
      [Vdp.VdpOp.ctrl 0x12, Vdp.VdpOp.ctrl 0x7F] c5_wit_post rfl rfl (by decide)⟩

/-- A successful `scanline()` leaves `cycle_counter` untouched and advances
`vcounter` by one modulo `num_scanlines`. -/
theorem scanline_counters (s s2 : Vdp.VdpState) (h : Vdp.scanline s = some s2) :
    s2.cycle_counter = s.cycle_counter ∧
    s2.vcounter = (s.vcounter + 1) % Vdp.num_scanlines := by
  simp only [Vdp.scanline] at h
  split at h
  · exact Option.noConfusion h
  · rename_i s1 h1
    split at h
    · exact Option.noConfusion h
    · rename_i s3 h3
      injection h with h2
      subst h2
      dsimp only
      have hs3 : s3.cycle_counter = s1.cycle_counter ∧ s3.vcounter = s1.vcounter := by
        split at h3
        · split at h3
          · exact Option.noConfusion h3
          · injection h3 with hh
            subst hh
            exact ⟨rfl, rfl⟩
        · injection h3 with hh
          subst hh
          exact ⟨rfl, rfl⟩
      have hs1 : s1.cycle_counter = s.cycle_counter ∧ s1.vcounter = s.vcounter := by
        split at h1
        · split at h1
          · exact Option.noConfusion h1
          · rename_i smid hmid
            have hmidf : smid.cycle_counter = s.cycle_counter ∧ smid.vcounter = s.vcounter := by
              split at hmid
              · split at hmid
                · exact Option.noConfusion hmid
                · rename_i scr hscr
                  injection hmid with hh
                  subst hh
                  exact ⟨rfl, rfl⟩
              · injection hmid with hh
                subst hh
                exact ⟨rfl, rfl⟩
            split at h1 <;> (injection h1 with hh; subst hh; exact hmidf)
        · split at h1
          · exact Option.noConfusion h1
          · rename_i smid hmid
            have hmidf : smid.cycle_counter = s.cycle_counter ∧ smid.vcounter = s.vcounter := by
              split at hmid
              · split at hmid
                · exact Option.noConfusion hmid
                · rename_i scr hscr
                  injection hmid with hh
                  subst hh
                  exact ⟨rfl, rfl⟩
              · injection hmid with hh
                subst hh
                exact ⟨rfl, rfl⟩
            split at h1 <;> (injection h1 with hh; subst hh; exact hmidf)
        · exact Option.noConfusion h1
      constructor
      · rw [hs3.1, hs1.1]
      · rw [hs3.2, hs1.2]

/-- C6 (counterexample). The claim quantifies over every `step(cycles)`
call. `Vdp::step` uses a single `if`, not a `while`: from `cycle_counter=0`
in SMS mode 4 on scanline 200, `step(454)` subtracts `cycles_per_line=227`
once and leaves `cycle_counter = 227`, which is not less than
`cycles_per_line`. -/
theorem vdp_step_large_cycles_cex :
    (Vdp.step 454 c6_cex_state).map Vdp.VdpState.cycle_counter = some 227 ∧
    ¬ (227 < Vdp.cycles_per_line) := ⟨rfl, by decide⟩

/-- C6 (amended). For calls with `cycles ≤ cycles_per_line` (which covers
every instruction T-state count the CPU can hand over), a successful
`Vdp::step(cycles)` preserves the invariant `vcounter < 262 ∧
cycle_counter < cycles_per_line`: the single conditional subtract then
reaches a value below `cycles_per_line`, and `scanline()` wraps `vcounter`
modulo `num_scanlines`. -/
theorem vdp_step_counter_bounds (s : Vdp.VdpState) (cycles : Nat) (s2 : Vdp.VdpState)
    (h1 : s.vcounter < 262) (h2 : s.cycle_counter < Vdp.cycles_per_line)
    (hc : cycles ≤ Vdp.cycles_per_line)
    (hrun : Vdp.step cycles s = some s2) :
    s2.vcounter < 262 ∧ s2.cycle_counter < Vdp.cycles_per_line := by
  simp only [Vdp.step] at hrun
  split at hrun
  · rename_i hge
    have hcc := scanline_counters _ _ hrun
    dsimp only at hcc
    simp only [Vdp.num_scanlines] at hcc
    constructor
    · rw [hcc.2]
      omega
    · rw [hcc.1]
      omega
  · rename_i hlt
    injection hrun with hh
    subst hh
    refine ⟨h1, ?_⟩
    dsimp only at hlt ⊢
    omega

/-- C6 (witness): `step(100)` from the top of a mode-4 frame. -/
theorem vdp_step_counter_bounds_witness :
    c6_wit_state.vcounter < 262 ∧ c6_wit_state.cycle_counter < Vdp.cycles_per_line ∧
    100 ≤ Vdp.cycles_per_line ∧ Vdp.step 100 c6_wit_state = some c6_wit_post ∧
    (c6_wit_post.vcounter < 262 ∧ c6_wit_post.cycle_counter < Vdp.cycles_per_line) :=
  ⟨by decide, by decide, by decide, rfl,
    vdp_step_counter_bounds c6_wit_state 100 c6_wit_post (by decide) (by decide) (by decide) rfl⟩

/-- C9. If interrupts are disabled (both enables clear) and an interrupt is
pending, the step that executes `EI` (opcode `0xFB`) does not service the
interrupt: `instr_ei` sets only `next_interrupts_enabled`, and the
end-of-step check still sees `interrupts_enabled = false`. The delayed
enable is committed at the start of the following step, and that step (here
a `NOP` in interrupt mode 1) services the interrupt after its instruction
completes — the earliest possible point. -/
theorem ei_delays_interrupt_service (s : Z80.z80_t)
    (hie : s.interrupts_enabled = false)
    (hnie : s.next_interrupts_enabled = false)
    (hpend : s.interrupt_pending = true)
    (hmode : s.interrupt_mode = 1)
    (hop : SMS.u8 (s.mem (SMS.u16 s.pc)) = 0xFB)
    (hop2 : SMS.u8 (s.mem (SMS.u16 (s.pc + 1))) = 0x00) :
    ∃ s1 c1, Z80.step s = some (s1, false, c1) ∧
      s1.interrupts_enabled = false ∧ s1.next_interrupts_enabled = true ∧
      s1.interrupt_pending = true ∧
      (Z80.step s1).map (fun p => p.2.1) = some true := by
  obtain ⟨a, f, bc, de, hl, pc, sp, ix, iy, i, r, af_, bc_, de_, hl_, im, ie, nie, ip, pi, ins, mem, log⟩ := s
  simp only at hie hnie hpend hmode hop hop2
  subst hie hnie hpend hmode
  refine ⟨{ a := a, f := f, bc := bc, de := de, hl := hl, pc := SMS.u16 (pc + 1),
            sp := sp, ix := ix, iy := iy, i := i,
            r := (SMS.u8 r &&& 0x80) ||| ((SMS.u8 r + 1) &&& 0x7F),
            af_ := af_, bc_ := bc_, de_ := de_, hl_ := hl_,
            interrupt_mode := 1, interrupts_enabled := false,
            next_interrupts_enabled := true, interrupt_pending := true,
            prev_immediate := pi, instructions := ins + 1, mem := mem,
            out_log := log }, 4, ?_, rfl, rfl, rfl, ?_⟩
  · simp [Z80.step, Z80.exec_instr, Z80.instr_ei, hop]
  · have hop2b : SMS.u8 (mem (SMS.u16 (SMS.u16 (pc + 1)))) = 0x00 := by
      rw [u16_idem]
      exact hop2
    simp [Z80.step, Z80.exec_instr, Z80.instr_nop, Z80.service_interrupt, hop2b]

/-- C9 (witness): the concrete state `c9_state` (EI at `PC=0`, NOP after,
interrupts disabled, an interrupt pending, mode 1). -/
theorem ei_delays_interrupt_service_witness :
    c9_state.interrupts_enabled = false ∧ c9_state.next_interrupts_enabled = false ∧
    c9_state.interrupt_pending = true ∧ c9_state.interrupt_mode = 1 ∧
    SMS.u8 (c9_state.mem (SMS.u16 c9_state.pc)) = 0xFB ∧
    SMS.u8 (c9_state.mem (SMS.u16 (c9_state.pc + 1))) = 0x00 ∧
    (∃ s1 c1, Z80.step c9_state = some (s1, false, c1) ∧
      s1.interrupts_enabled = false ∧ s1.next_interrupts_enabled = true ∧
      s1.interrupt_pending = true ∧
      (Z80.step s1).map (fun p => p.2.1) = some true) :=
  ⟨rfl, rfl, rfl, rfl, by decide, by decide,
    ei_delays_interrupt_service c9_state rfl rfl rfl rfl (by decide) (by decide)⟩

/-- C10. `OUTI` and `OTIR` leave the flag register entirely unchanged: the
source's `instr_outi` and `instr_otir` never write any field of `f`. -/
theorem outi_otir_preserve_flags (s : Z80.z80_t) :
    (Z80.instr_outi s).1.f = s.f ∧ (Z80.instr_otir s).1.f = s.f := by
  refine ⟨rfl, ?_⟩
  simp only [Z80.instr_otir]
  split <;> rfl

end SMS
